import Mathlib

/-
Verification of the nrq lobby coordinator (src/server/index.js).

The server keeps three in-memory JS Maps: `lobbies` (lobbyId → lobby),
`players` (clientId → player record) and `lobbySubscriptions`
(clientId → lobbyId).  We embed them as association lists keyed by
`String`; `mapGet` / `mapSet` / `mapDelete` mirror `Map.get` /
`Map.set` / `Map.delete` (insertion order preserved, `set` overwrites
in place, as JS Maps do).

Opaque fresh values produced inside the JS code (uuidv4 lobby ids,
`generatePassword()` results, `new Date()` timestamps) are modelled as
explicit parameters of the operations; chat-message uuid ids and
timestamps, which no property observes, are elided from `ChatMessage`.
-/

structure Player where
  id : String
  name : String
  level : Nat
deriving DecidableEq

structure ChatMessage where
  user : String
  message : String
deriving DecidableEq

structure Lobby where
  id : String
  title : String
  hostId : String
  players : List String
  maxPlayers : Nat
  password : String
  isPrivate : Bool
  createdAt : Nat
  chatMessages : List ChatMessage
deriving DecidableEq

structure ServerState where
  lobbies : List (String × Lobby)
  players : List (String × Player)
  subs : List (String × String)
deriving DecidableEq

/-- Mirrors JS `Map.get`: first entry with the given key. -/
def mapGet {α : Type} : List (String × α) → String → Option α
  | [], _ => none
  | (k', v) :: rest, k => if k' = k then some v else mapGet rest k

/-- Mirrors JS `Map.set`: overwrite in place if the key exists, else append. -/
def mapSet {α : Type} : List (String × α) → String → α → List (String × α)
  | [], k, v => [(k, v)]
  | (k', v') :: rest, k, v =>
      if k' = k then (k', v) :: rest else (k', v') :: mapSet rest k v

/-- Mirrors JS `Map.delete`: remove the key's entry. -/
def mapDelete {α : Type} (m : List (String × α)) (k : String) : List (String × α) :=
  m.filter (fun e => e.1 != k)

def initState : ServerState := ⟨[], [], []⟩

/-- JS `players.get(pid)?.name || dflt` (`||` also replaces the empty string). -/
def nameOr (st : ServerState) (pid : String) (dflt : String) : String :=
  match mapGet st.players pid with
  | some p => if p.name = "" then dflt else p.name
  | none => dflt

/-- Mirrors `LobbyManager.createLobby(title, hostId, maxPlayers = 3)`.
`lobbyId` stands for the generated uuid (fresh by assumption where needed),
`password` for the random `generatePassword()` result and `createdAt` for
`new Date()`.  `maxPlayers?` is the dispatcher-supplied `data.maxPlayers`;
`none` (JS `undefined`) selects the default 3, any number — including 0 —
is kept as is. -/
def createLobby (st : ServerState) (lobbyId title hostId : String)
    (maxPlayers? : Option Nat) (password : String) (createdAt : Nat) :
    Lobby × ServerState :=
  let lobby : Lobby :=
    { id := lobbyId, title := title, hostId := hostId, players := [hostId],
      maxPlayers := maxPlayers?.getD 3, password := password,
      isPrivate := false, createdAt := createdAt,
      chatMessages := [⟨"System", "Lobby created! Welcome!"⟩] }
  (lobby, { st with lobbies := mapSet st.lobbies lobbyId lobby,
                    subs := mapSet st.subs hostId lobbyId })

/-- Mirrors `LobbyManager.joinLobby(lobbyId, playerId)`. -/
def joinLobby (st : ServerState) (lobbyId playerId : String) :
    Except String Lobby × ServerState :=
  match mapGet st.lobbies lobbyId with
  | none => (.error "Lobby not found", st)
  | some lobby =>
    if lobby.players.length ≥ lobby.maxPlayers then
      (.error "Lobby is full", st)
    else if playerId ∈ lobby.players then
      (.error "Already in lobby", st)
    else
      let lobby' := { lobby with
        players := lobby.players ++ [playerId],
        chatMessages := lobby.chatMessages ++
          [⟨"System", nameOr st playerId "Player" ++ " joined the lobby"⟩] }
      (.ok lobby', { st with lobbies := mapSet st.lobbies lobbyId lobby',
                             subs := mapSet st.subs playerId lobbyId })

/-- Result of a successful `leaveLobby`: the JS object either carries
`lobbyDeleted: true` or the surviving lobby. -/
inductive LeaveOk where
  | deleted : LeaveOk
  | stillExists : Lobby → LeaveOk
deriving DecidableEq

/-- Mirrors `LobbyManager.leaveLobby(playerId)`: resolves the lobby through
`lobbySubscriptions`, removes the player, appends the departure system
message, then promotes `players[0]` or deletes the lobby if the host left. -/
def leaveLobby (st : ServerState) (playerId : String) :
    Except String LeaveOk × ServerState :=
  match mapGet st.subs playerId with
  | none => (.error "Not in any lobby", st)
  | some lobbyId =>
    match mapGet st.lobbies lobbyId with
    | none => (.error "Lobby not found", st)
    | some lobby =>
      let players' := lobby.players.filter (fun pid => pid != playerId)
      let chat' := lobby.chatMessages ++
        [⟨"System", nameOr st playerId "Player" ++ " left the lobby"⟩]
      let subs' := mapDelete st.subs playerId
      if lobby.hostId = playerId then
        match players' with
        | newHost :: rest =>
          let lobby' := { lobby with
            players := newHost :: rest, hostId := newHost,
            chatMessages := chat' ++
              [⟨"System", nameOr st newHost "Player" ++ " is now the host"⟩] }
          (.ok (.stillExists lobby'),
           { st with lobbies := mapSet st.lobbies lobbyId lobby', subs := subs' })
        | [] =>
          (.ok .deleted,
           { st with lobbies := mapDelete st.lobbies lobbyId, subs := subs' })
      else
        let lobby' := { lobby with players := players', chatMessages := chat' }
        (.ok (.stillExists lobby'),
         { st with lobbies := mapSet st.lobbies lobbyId lobby', subs := subs' })

/-- Mirrors `LobbyManager.delistLobby(lobbyId, playerId)`.  The dispatcher passes
`lobbySubscriptions.get(ws.playerId)`, which may be `undefined`; a `none`
lobby id behaves like a missing lobby (`Map.get(undefined)` is `undefined`). -/
def delistLobby (st : ServerState) (lobbyId? : Option String) (playerId : String) :
    Except String Unit × ServerState :=
  match lobbyId? with
  | none => (.error "Lobby not found", st)
  | some lobbyId =>
    match mapGet st.lobbies lobbyId with
    | none => (.error "Lobby not found", st)
    | some lobby =>
      if lobby.hostId ≠ playerId then
        (.error "Only host can delist lobby", st)
      else
        (.ok (),
         { st with lobbies := mapDelete st.lobbies lobbyId,
                   subs := lobby.players.foldl (fun s pid => mapDelete s pid) st.subs })

/-- Mirrors `LobbyManager.addChatMessage(lobbyId, playerId, message)`: appends the
message (author resolved through the registry, `'Unknown'` fallback) and
trims the history to the most recent 100 entries (`slice(-100)`). -/
def addChatMessage (st : ServerState) (lobbyId? : Option String)
    (playerId message : String) : Except String ChatMessage × ServerState :=
  match lobbyId? with
  | none => (.error "Lobby not found", st)
  | some lobbyId =>
    match mapGet st.lobbies lobbyId with
    | none => (.error "Lobby not found", st)
    | some lobby =>
      if playerId ∈ lobby.players then
        let chatMessage : ChatMessage :=
          ⟨nameOr st playerId "Unknown", message.trim⟩
        let pushed := lobby.chatMessages ++ [chatMessage]
        let chat' := if pushed.length > 100 then pushed.drop (pushed.length - 100) else pushed
        (.ok chatMessage,
         { st with lobbies := mapSet st.lobbies lobbyId { lobby with chatMessages := chat' } })
      else
        (.error "Not in this lobby", st)

/-- Mirrors `LobbyManager.regeneratePassword(lobbyId, playerId)`; `newPassword`
stands for the fresh `generatePassword()` result. -/
def regeneratePassword (st : ServerState) (lobbyId? : Option String)
    (playerId newPassword : String) : Except String String × ServerState :=
  match lobbyId? with
  | none => (.error "Lobby not found", st)
  | some lobbyId =>
    match mapGet st.lobbies lobbyId with
    | none => (.error "Lobby not found", st)
    | some lobby =>
      if lobby.hostId ≠ playerId then
        (.error "Only host can regenerate password", st)
      else
        (.ok newPassword,
         { st with lobbies := mapSet st.lobbies lobbyId { lobby with password := newPassword } })

/-- Mirrors `LobbyManager.togglePrivacy(lobbyId, playerId)`. -/
def togglePrivacy (st : ServerState) (lobbyId? : Option String) (playerId : String) :
    Except String Bool × ServerState :=
  match lobbyId? with
  | none => (.error "Lobby not found", st)
  | some lobbyId =>
    match mapGet st.lobbies lobbyId with
    | none => (.error "Lobby not found", st)
    | some lobby =>
      if lobby.hostId ≠ playerId then
        (.error "Only host can change privacy", st)
      else
        (.ok (!lobby.isPrivate),
         { st with lobbies := mapSet st.lobbies lobbyId { lobby with isPrivate := !lobby.isPrivate } })

/-- Mirrors `lobby.players.map(pid => players.get(pid)).filter(Boolean)`. -/
def resolvePlayers (st : ServerState) (pids : List String) : List Player :=
  pids.filterMap (mapGet st.players)

structure LobbySummary where
  id : String
  title : String
  players : List Player
  maxPlayers : Nat
  createdAt : Nat
deriving DecidableEq

/-- Mirrors `LobbyManager.getPublicLobbies()`. -/
def getPublicLobbies (st : ServerState) : List LobbySummary :=
  ((st.lobbies.map Prod.snd).filter (fun l => !l.isPrivate)).map (fun l =>
    { id := l.id, title := l.title, players := resolvePlayers st l.players,
      maxPlayers := l.maxPlayers, createdAt := l.createdAt })

/-- The `{...lobby, players: resolved}` view returned by `getLobbyDetails`. -/
structure LobbyDetails where
  id : String
  title : String
  hostId : String
  players : List Player
  maxPlayers : Nat
  password : String
  isPrivate : Bool
  createdAt : Nat
  chatMessages : List ChatMessage
deriving DecidableEq

/-- Mirrors `LobbyManager.getLobbyDetails(lobbyId, playerId)` (read-only; the state
component records that nothing is mutated). -/
def getLobbyDetails (st : ServerState) (lobbyId? : Option String) (playerId : String) :
    Except String LobbyDetails × ServerState :=
  match lobbyId? with
  | none => (.error "Lobby not found", st)
  | some lobbyId =>
    match mapGet st.lobbies lobbyId with
    | none => (.error "Lobby not found", st)
    | some lobby =>
      if playerId ∈ lobby.players then
        (.ok { id := lobby.id, title := lobby.title, hostId := lobby.hostId,
               players := resolvePlayers st lobby.players,
               maxPlayers := lobby.maxPlayers, password := lobby.password,
               isPrivate := lobby.isPrivate, createdAt := lobby.createdAt,
               chatMessages := lobby.chatMessages }, st)
      else
        (.error "Not in this lobby", st)

/-- The `register_player` case: `players.set(ws.playerId, {id, name, level: data.level || 1})`. -/
def registerPlayer (st : ServerState) (clientId name : String) (level? : Option Nat) :
    ServerState :=
  let lvl := match level? with
    | some l => if l = 0 then 1 else l
    | none => 1
  { st with players := mapSet st.players clientId ⟨clientId, name, lvl⟩ }

/-- The `ws.on('close')` handler's state effect: forced leave, then
`players.delete` and `lobbySubscriptions.delete` for the connection. -/
def closeConnection (st : ServerState) (clientId : String) : ServerState :=
  let st1 := (leaveLobby st clientId).2
  { st1 with players := mapDelete st1.players clientId,
             subs := mapDelete st1.subs clientId }

/-
The notification layer.  `clients` is the set of currently-open sockets
(`wss.clients`), identified by their `ws.playerId`; an `Event` records one
`broadcast` / `sendToClient` call together with the connections that
actually receive it (those whose socket is open).
-/

structure Event where
  type : String
  recipients : List String
deriving DecidableEq

/-- Mirrors `sendToClient(client, type, ...)`: delivered only if the socket is open. -/
def sendToClient (clients : List String) (c : String) (type : String) : Event :=
  ⟨type, if clients.contains c then [c] else []⟩

/-- Mirrors `broadcast(Array.from(wss.clients), type, ...)`. -/
def broadcastAll (clients : List String) (type : String) : Event :=
  ⟨type, clients⟩

/-- Mirrors `broadcastToLobby(lobbyId, type, data, exclude)`: looks the lobby up in
the CURRENT `lobbies` map and silently does nothing when it is absent. -/
def broadcastToLobby (st : ServerState) (clients : List String)
    (lobbyId? : Option String) (type : String) (exclude? : Option String) :
    List Event :=
  match lobbyId?.bind (mapGet st.lobbies) with
  | none => []
  | some lobby =>
      [⟨type, clients.filter (fun c => lobby.players.contains c && exclude? != some c)⟩]

/-- The `case 'leave_lobby'` dispatcher branch: note that the `player_left`
broadcast resolves the lobby through `lobbySubscriptions.get(ws.playerId)`
AFTER `leaveLobby` has already deleted that subscription entry. -/
def handleLeaveLobby (st : ServerState) (clients : List String) (clientId : String) :
    ServerState × List Event :=
  let r := leaveLobby st clientId
  match r.1 with
  | .ok lr =>
      (r.2, sendToClient clients clientId "lobby_left" ::
        ((match lr with
          | .deleted => []
          | .stillExists _ =>
              broadcastToLobby r.2 clients (mapGet r.2.subs clientId)
                "player_left" (some clientId)) ++
         [broadcastAll clients "lobbies_updated"]))
  | .error _ => (r.2, [sendToClient clients clientId "error"])

/-- The `case 'delist_lobby'` dispatcher branch: the `lobby_delisted`
broadcast runs after `delistLobby` has already removed the lobby from the map. -/
def handleDelistLobby (st : ServerState) (clients : List String) (clientId : String) :
    ServerState × List Event :=
  let currentLobbyId := mapGet st.subs clientId
  let r := delistLobby st currentLobbyId clientId
  match r.1 with
  | .ok _ =>
      (r.2, broadcastToLobby r.2 clients currentLobbyId "lobby_delisted" none ++
            [broadcastAll clients "lobbies_updated"])
  | .error _ => (r.2, [sendToClient clients clientId "error"])

/-- The `ws.on('close')` handler: forced leave, the same post-deletion
`player_left` broadcast pattern as `leave_lobby`, then identity teardown
and a `lobbies_updated` broadcast. -/
def handleClose (st : ServerState) (clients : List String) (clientId : String) :
    ServerState × List Event :=
  let r := leaveLobby st clientId
  let evs : List Event :=
    match r.1 with
    | .ok .deleted => []
    | .ok (.stillExists _) =>
        broadcastToLobby r.2 clients (mapGet r.2.subs clientId) "player_left" none
    | .error _ => []
  let st2 : ServerState :=
    { r.2 with players := mapDelete r.2.players clientId,
               subs := mapDelete r.2.subs clientId }
  (st2, evs ++ [broadcastAll clients "lobbies_updated"])

/-
Reachability: one constructor per state-mutating path of the dispatcher.
`delist`, `chat`, `regen` and `toggle` receive the lobby id through
`lobbySubscriptions.get(ws.playerId)` exactly as the dispatcher does; the
`create` step carries the freshness of the generated uuid as a hypothesis.
-/

inductive Step : ServerState → ServerState → Prop where
  | register (st : ServerState) (cid name : String) (level? : Option Nat) :
      Step st (registerPlayer st cid name level?)
  | create (st : ServerState) (lobbyId title hostId : String)
      (maxPlayers? : Option Nat) (password : String) (createdAt : Nat)
      (hfresh : mapGet st.lobbies lobbyId = none) :
      Step st (createLobby st lobbyId title hostId maxPlayers? password createdAt).2
  | join (st : ServerState) (lobbyId playerId : String) :
      Step st (joinLobby st lobbyId playerId).2
  | leave (st : ServerState) (playerId : String) :
      Step st (leaveLobby st playerId).2
  | delist (st : ServerState) (playerId : String) :
      Step st (delistLobby st (mapGet st.subs playerId) playerId).2
  | chat (st : ServerState) (playerId message : String) :
      Step st (addChatMessage st (mapGet st.subs playerId) playerId message).2
  | regen (st : ServerState) (playerId newPassword : String) :
      Step st (regeneratePassword st (mapGet st.subs playerId) playerId newPassword).2
  | toggle (st : ServerState) (playerId : String) :
      Step st (togglePrivacy st (mapGet st.subs playerId) playerId).2
  | close (st : ServerState) (clientId : String) :
      Step st (closeConnection st clientId)

def Reachable (st : ServerState) : Prop :=
  Relation.ReflTransGen Step initState st

/-
Association-list lemmas.
-/

theorem mapGet_set {α : Type} (m : List (String × α)) (k k' : String) (v : α) :
    mapGet (mapSet m k v) k' = if k = k' then some v else mapGet m k' := by
  induction m with
  | nil => simp [mapGet, mapSet]
  | cons e rest ih =>
      obtain ⟨ek, ev⟩ := e
      by_cases h1 : ek = k
      · subst h1
        by_cases h2 : ek = k' <;> simp [mapGet, mapSet, h2]
      · by_cases h2 : ek = k'
        · subst h2
          have : ¬(k = ek) := fun hc => h1 hc.symm
          simp [mapGet, mapSet, h1, this]
        · simp [mapGet, mapSet, h1, h2, ih]

theorem mapGet_delete {α : Type} (m : List (String × α)) (k k' : String) :
    mapGet (mapDelete m k) k' = if k = k' then none else mapGet m k' := by
  induction m with
  | nil => simp [mapGet, mapDelete]
  | cons e rest ih =>
      obtain ⟨ek, ev⟩ := e
      simp only [mapDelete] at ih ⊢
      by_cases h1 : ek = k
      · subst h1
        by_cases h2 : ek = k'
        · subst h2
          simp [mapGet, List.filter_cons, ih]
        · simp [mapGet, List.filter_cons, h2, ih]
      · by_cases h2 : ek = k'
        · subst h2
          have hk : ¬(k = ek) := fun hc => h1 hc.symm
          simp [mapGet, List.filter_cons, bne_iff_ne, h1, hk]
        · simp [mapGet, List.filter_cons, bne_iff_ne, h1, h2, ih]

theorem mapGet_foldl_delete {α : Type} (ks : List String)
    (m : List (String × α)) (c : String) :
    mapGet (ks.foldl (fun s k => mapDelete s k) m) c =
      if c ∈ ks then none else mapGet m c := by
  induction ks generalizing m with
  | nil => simp
  | cons k ks ih =>
      simp only [List.foldl_cons, ih, mapGet_delete, List.mem_cons]
      by_cases h1 : c ∈ ks
      · simp [h1]
      · by_cases h2 : c = k
        · simp [h1, h2]
        · have hk : ¬(k = c) := fun hc => h2 hc.symm
          simp [h1, h2, hk]


/-
Capacity invariant.  `createLobby` unconditionally makes the host the sole
member, so a caller-supplied `maxPlayers` of 0 yields a lobby with
1 member > 0 capacity; every other operation keeps the member count below
`maxPlayers`.  The invariant that actually holds on all reachable states is
`length players ≤ max maxPlayers 1`.
-/

def CapInv (st : ServerState) : Prop :=
  ∀ lid l, mapGet st.lobbies lid = some l → l.players.length ≤ max l.maxPlayers 1

theorem capInv_init : CapInv initState := by
  intro lid l hl
  simp [initState, mapGet] at hl

theorem capInv_register (st : ServerState) (cid name : String) (level? : Option Nat)
    (h : CapInv st) : CapInv (registerPlayer st cid name level?) := by
  intro lid l hl
  exact h lid l hl

theorem capInv_create (st : ServerState) (lobbyId title hostId : String)
    (maxPlayers? : Option Nat) (password : String) (createdAt : Nat)
    (h : CapInv st) :
    CapInv (createLobby st lobbyId title hostId maxPlayers? password createdAt).2 := by
  intro lid l hl
  simp only [createLobby, mapGet_set] at hl
  split at hl
  · cases hl
    exact Nat.le_max_right _ _
  · exact h lid l hl

theorem capInv_join (st : ServerState) (lobbyId playerId : String) (h : CapInv st) :
    CapInv (joinLobby st lobbyId playerId).2 := by
  intro lid l hl
  cases e : mapGet st.lobbies lobbyId with
  | none =>
      simp only [joinLobby, e] at hl
      exact h lid l hl
  | some lobby =>
      by_cases hfull : lobby.players.length ≥ lobby.maxPlayers
      · simp only [joinLobby, e, if_pos hfull] at hl
        exact h lid l hl
      · by_cases hmem : playerId ∈ lobby.players
        · simp only [joinLobby, e, if_neg hfull, if_pos hmem] at hl
          exact h lid l hl
        · simp only [joinLobby, e, if_neg hfull, if_neg hmem, mapGet_set] at hl
          split at hl
          · injection hl with h4
            subst h4
            have hb := h lobbyId lobby e
            simp only [List.length_append, List.length_cons, List.length_nil]
            omega
          · exact h lid l hl

theorem capInv_leave (st : ServerState) (playerId : String) (h : CapInv st) :
    CapInv (leaveLobby st playerId).2 := by
  intro lid l hl
  cases e1 : mapGet st.subs playerId with
  | none =>
      simp only [leaveLobby, e1] at hl
      exact h lid l hl
  | some lobbyId =>
      cases e2 : mapGet st.lobbies lobbyId with
      | none =>
          simp only [leaveLobby, e1, e2] at hl
          exact h lid l hl
      | some lobby =>
          have hfil : (lobby.players.filter (fun pid => pid != playerId)).length ≤
              lobby.players.length := List.length_filter_le _ _
          have hb := h lobbyId lobby e2
          by_cases hh : lobby.hostId = playerId
          · cases e3 : lobby.players.filter (fun pid => pid != playerId) with
            | nil =>
                simp only [leaveLobby, e1, e2, if_pos hh, e3, mapGet_delete] at hl
                split at hl
                · exact absurd hl (by simp)
                · exact h lid l hl
            | cons newHost rest =>
                simp only [leaveLobby, e1, e2, if_pos hh, e3, mapGet_set] at hl
                split at hl
                · injection hl with h4
                  subst h4
                  rw [e3] at hfil
                  simpa using le_trans hfil hb
                · exact h lid l hl
          · simp only [leaveLobby, e1, e2, if_neg hh, mapGet_set] at hl
            split at hl
            · injection hl with h4
              subst h4
              simpa using le_trans hfil hb
            · exact h lid l hl

theorem capInv_delist (st : ServerState) (lobbyId? : Option String) (playerId : String)
    (h : CapInv st) : CapInv (delistLobby st lobbyId? playerId).2 := by
  intro lid l hl
  cases lobbyId? with
  | none => exact h lid l hl
  | some lobbyId =>
      cases e : mapGet st.lobbies lobbyId with
      | none =>
          simp only [delistLobby, e] at hl
          exact h lid l hl
      | some lobby =>
          by_cases hh : lobby.hostId ≠ playerId
          · simp only [delistLobby, e, if_pos hh] at hl
            exact h lid l hl
          · simp only [delistLobby, e, if_neg hh, mapGet_delete] at hl
            split at hl
            · exact absurd hl (by simp)
            · exact h lid l hl

theorem capInv_chat (st : ServerState) (lobbyId? : Option String) (playerId message : String)
    (h : CapInv st) : CapInv (addChatMessage st lobbyId? playerId message).2 := by
  intro lid l hl
  cases lobbyId? with
  | none => exact h lid l hl
  | some lobbyId =>
      cases e : mapGet st.lobbies lobbyId with
      | none =>
          simp only [addChatMessage, e] at hl
          exact h lid l hl
      | some lobby =>
          by_cases hmem : playerId ∈ lobby.players
          · simp only [addChatMessage, e, if_pos hmem, mapGet_set] at hl
            split at hl
            · injection hl with h4
              subst h4
              exact h lobbyId lobby e
            · exact h lid l hl
          · simp only [addChatMessage, e, if_neg hmem] at hl
            exact h lid l hl

theorem capInv_regen (st : ServerState) (lobbyId? : Option String)
    (playerId newPassword : String) (h : CapInv st) :
    CapInv (regeneratePassword st lobbyId? playerId newPassword).2 := by
  intro lid l hl
  cases lobbyId? with
  | none => exact h lid l hl
  | some lobbyId =>
      cases e : mapGet st.lobbies lobbyId with
      | none =>
          simp only [regeneratePassword, e] at hl
          exact h lid l hl
      | some lobby =>
          by_cases hh : lobby.hostId ≠ playerId
          · simp only [regeneratePassword, e, if_pos hh] at hl
            exact h lid l hl
          · simp only [regeneratePassword, e, if_neg hh, mapGet_set] at hl
            split at hl
            · injection hl with h4
              subst h4
              exact h lobbyId lobby e
            · exact h lid l hl

theorem capInv_toggle (st : ServerState) (lobbyId? : Option String) (playerId : String)
    (h : CapInv st) : CapInv (togglePrivacy st lobbyId? playerId).2 := by
  intro lid l hl
  cases lobbyId? with
  | none => exact h lid l hl
  | some lobbyId =>
      cases e : mapGet st.lobbies lobbyId with
      | none =>
          simp only [togglePrivacy, e] at hl
          exact h lid l hl
      | some lobby =>
          by_cases hh : lobby.hostId ≠ playerId
          · simp only [togglePrivacy, e, if_pos hh] at hl
            exact h lid l hl
          · simp only [togglePrivacy, e, if_neg hh, mapGet_set] at hl
            split at hl
            · injection hl with h4
              subst h4
              exact h lobbyId lobby e
            · exact h lid l hl

theorem capInv_close (st : ServerState) (clientId : String) (h : CapInv st) :
    CapInv (closeConnection st clientId) := by
  intro lid l hl
  exact capInv_leave st clientId h lid l hl

theorem capInv_step {st st' : ServerState} (hs : Step st st') (h : CapInv st) :
    CapInv st' := by
  cases hs with
  | register cid name level? => exact capInv_register st cid name level? h
  | create lobbyId title hostId maxPlayers? password createdAt hfresh =>
      exact capInv_create st lobbyId title hostId maxPlayers? password createdAt h
  | join lobbyId playerId => exact capInv_join st lobbyId playerId h
  | leave playerId => exact capInv_leave st playerId h
  | delist playerId => exact capInv_delist st _ playerId h
  | chat playerId message => exact capInv_chat st _ playerId message h
  | regen playerId newPassword => exact capInv_regen st _ playerId newPassword h
  | toggle playerId => exact capInv_toggle st _ playerId h
  | close clientId => exact capInv_close st clientId h

theorem capInv_reachable (st : ServerState) (h : Reachable st) : CapInv st := by
  induction h with
  | refl => exact capInv_init
  | tail _ hstep ih => exact capInv_step hstep ih

/-
Subscription invariant.  The spec's bidirectional invariant (a connection is
subscribed iff it is a member, and is a member of at most one lobby) fails:
`create_lobby` and `join_lobby` never remove the caller from a lobby it
already occupies.  What the code does maintain is the forward direction
along the subscription: whenever `lobbySubscriptions` maps a connection to a
lobby id, that lobby exists and lists the connection as a member.
-/

def SubConsistent (st : ServerState) : Prop :=
  ∀ c lid, mapGet st.subs c = some lid →
    ∃ lb, mapGet st.lobbies lid = some lb ∧ c ∈ lb.players

theorem subCons_init : SubConsistent initState := by
  intro c lid hc
  simp [initState, mapGet] at hc

theorem subCons_register (st : ServerState) (cid name : String) (level? : Option Nat)
    (h : SubConsistent st) : SubConsistent (registerPlayer st cid name level?) := by
  intro c lid hc
  exact h c lid hc

theorem subCons_create (st : ServerState) (lobbyId title hostId : String)
    (maxPlayers? : Option Nat) (password : String) (createdAt : Nat)
    (hfresh : mapGet st.lobbies lobbyId = none) (h : SubConsistent st) :
    SubConsistent (createLobby st lobbyId title hostId maxPlayers? password createdAt).2 := by
  intro c lid hc
  simp only [createLobby, mapGet_set] at hc ⊢
  by_cases hc1 : hostId = c
  · rw [if_pos hc1] at hc
    injection hc with h4
    subst h4
    rw [if_pos rfl]
    exact ⟨_, rfl, by simp [hc1]⟩
  · rw [if_neg hc1] at hc
    obtain ⟨lb, hlb, hmem⟩ := h c lid hc
    have hne : lobbyId ≠ lid := by
      intro hq
      rw [← hq, hfresh] at hlb
      exact Option.noConfusion hlb
    rw [if_neg hne]
    exact ⟨lb, hlb, hmem⟩

theorem subCons_join (st : ServerState) (lobbyId playerId : String)
    (h : SubConsistent st) : SubConsistent (joinLobby st lobbyId playerId).2 := by
  intro c lid hc
  cases e : mapGet st.lobbies lobbyId with
  | none =>
      simp only [joinLobby, e] at hc ⊢
      exact h c lid hc
  | some lobby =>
      by_cases hfull : lobby.players.length ≥ lobby.maxPlayers
      · simp only [joinLobby, e, if_pos hfull] at hc ⊢
        exact h c lid hc
      · by_cases hmem : playerId ∈ lobby.players
        · simp only [joinLobby, e, if_neg hfull, if_pos hmem] at hc ⊢
          exact h c lid hc
        · simp only [joinLobby, e, if_neg hfull, if_neg hmem, mapGet_set] at hc ⊢
          by_cases hc1 : playerId = c
          · rw [if_pos hc1] at hc
            injection hc with h4
            subst h4
            rw [if_pos rfl]
            exact ⟨_, rfl, by simp [hc1]⟩
          · rw [if_neg hc1] at hc
            obtain ⟨lb, hlb, hmem2⟩ := h c lid hc
            by_cases hc2 : lobbyId = lid
            · subst hc2
              rw [e] at hlb
              injection hlb with h5
              subst h5
              rw [if_pos rfl]
              exact ⟨_, rfl, by simp [hmem2]⟩
            · rw [if_neg hc2]
              exact ⟨lb, hlb, hmem2⟩

theorem subCons_leave (st : ServerState) (playerId : String)
    (h : SubConsistent st) : SubConsistent (leaveLobby st playerId).2 := by
  intro c lid hc
  cases e1 : mapGet st.subs playerId with
  | none =>
      simp only [leaveLobby, e1] at hc ⊢
      exact h c lid hc
  | some lobbyId =>
      cases e2 : mapGet st.lobbies lobbyId with
      | none =>
          simp only [leaveLobby, e1, e2] at hc ⊢
          exact h c lid hc
      | some lobby =>
          by_cases hh : lobby.hostId = playerId
          · cases e3 : lobby.players.filter (fun pid => pid != playerId) with
            | nil =>
                simp only [leaveLobby, e1, e2, if_pos hh, e3, mapGet_delete] at hc ⊢
                by_cases hc1 : playerId = c
                · rw [if_pos hc1] at hc
                  exact absurd hc (by simp)
                · rw [if_neg hc1] at hc
                  obtain ⟨lb, hlb, hm⟩ := h c lid hc
                  have hne : lobbyId ≠ lid := by
                    intro hq
                    subst hq
                    rw [e2] at hlb
                    injection hlb with h5
                    subst h5
                    have hcf : c ∈ lobby.players.filter (fun pid => pid != playerId) := by
                      refine List.mem_filter.mpr ⟨hm, ?_⟩
                      simp only [bne_iff_ne, ne_eq]
                      exact fun hq2 => hc1 hq2.symm
                    rw [e3] at hcf
                    simp at hcf
                  rw [if_neg hne]
                  exact ⟨lb, hlb, hm⟩
            | cons newHost rest =>
                simp only [leaveLobby, e1, e2, if_pos hh, e3, mapGet_delete, mapGet_set] at hc ⊢
                by_cases hc1 : playerId = c
                · rw [if_pos hc1] at hc
                  exact absurd hc (by simp)
                · rw [if_neg hc1] at hc
                  obtain ⟨lb, hlb, hm⟩ := h c lid hc
                  by_cases hc2 : lobbyId = lid
                  · subst hc2
                    rw [e2] at hlb
                    injection hlb with h5
                    subst h5
                    rw [if_pos rfl]
                    refine ⟨_, rfl, ?_⟩
                    have hcf : c ∈ lobby.players.filter (fun pid => pid != playerId) := by
                      refine List.mem_filter.mpr ⟨hm, ?_⟩
                      simp only [bne_iff_ne, ne_eq]
                      exact fun hq2 => hc1 hq2.symm
                    rw [e3] at hcf
                    simpa using hcf
                  · rw [if_neg hc2]
                    exact ⟨lb, hlb, hm⟩
          · simp only [leaveLobby, e1, e2, if_neg hh, mapGet_delete, mapGet_set] at hc ⊢
            by_cases hc1 : playerId = c
            · rw [if_pos hc1] at hc
              exact absurd hc (by simp)
            · rw [if_neg hc1] at hc
              obtain ⟨lb, hlb, hm⟩ := h c lid hc
              by_cases hc2 : lobbyId = lid
              · subst hc2
                rw [e2] at hlb
                injection hlb with h5
                subst h5
                rw [if_pos rfl]
                refine ⟨_, rfl, ?_⟩
                refine List.mem_filter.mpr ⟨hm, ?_⟩
                simp only [bne_iff_ne, ne_eq]
                exact fun hq2 => hc1 hq2.symm
              · rw [if_neg hc2]
                exact ⟨lb, hlb, hm⟩

theorem subCons_delist (st : ServerState) (lobbyId? : Option String) (playerId : String)
    (h : SubConsistent st) : SubConsistent (delistLobby st lobbyId? playerId).2 := by
  intro c lid hc
  cases lobbyId? with
  | none => exact h c lid hc
  | some lobbyId =>
      cases e : mapGet st.lobbies lobbyId with
      | none =>
          simp only [delistLobby, e] at hc ⊢
          exact h c lid hc
      | some lobby =>
          by_cases hh : lobby.hostId ≠ playerId
          · simp only [delistLobby, e, if_pos hh] at hc ⊢
            exact h c lid hc
          · simp only [delistLobby, e, if_neg hh, mapGet_foldl_delete, mapGet_delete] at hc ⊢
            by_cases hcm : c ∈ lobby.players
            · rw [if_pos hcm] at hc
              exact absurd hc (by simp)
            · rw [if_neg hcm] at hc
              obtain ⟨lb, hlb, hm⟩ := h c lid hc
              have hne : lobbyId ≠ lid := by
                intro hq
                subst hq
                rw [e] at hlb
                injection hlb with h5
                subst h5
                exact hcm hm
              rw [if_neg hne]
              exact ⟨lb, hlb, hm⟩

theorem subCons_chat (st : ServerState) (lobbyId? : Option String) (playerId message : String)
    (h : SubConsistent st) : SubConsistent (addChatMessage st lobbyId? playerId message).2 := by
  intro c lid hc
  cases lobbyId? with
  | none => exact h c lid hc
  | some lobbyId =>
      cases e : mapGet st.lobbies lobbyId with
      | none =>
          simp only [addChatMessage, e] at hc ⊢
          exact h c lid hc
      | some lobby =>
          by_cases hmem : playerId ∈ lobby.players
          · simp only [addChatMessage, e, if_pos hmem, mapGet_set] at hc ⊢
            obtain ⟨lb, hlb, hm⟩ := h c lid hc
            by_cases hc2 : lobbyId = lid
            · subst hc2
              rw [e] at hlb
              injection hlb with h5
              subst h5
              rw [if_pos rfl]
              exact ⟨_, rfl, by simpa using hm⟩
            · rw [if_neg hc2]
              exact ⟨lb, hlb, hm⟩
          · simp only [addChatMessage, e, if_neg hmem] at hc ⊢
            exact h c lid hc

theorem subCons_regen (st : ServerState) (lobbyId? : Option String)
    (playerId newPassword : String) (h : SubConsistent st) :
    SubConsistent (regeneratePassword st lobbyId? playerId newPassword).2 := by
  intro c lid hc
  cases lobbyId? with
  | none => exact h c lid hc
  | some lobbyId =>
      cases e : mapGet st.lobbies lobbyId with
      | none =>
          simp only [regeneratePassword, e] at hc ⊢
          exact h c lid hc
      | some lobby =>
          by_cases hh : lobby.hostId ≠ playerId
          · simp only [regeneratePassword, e, if_pos hh] at hc ⊢
            exact h c lid hc
          · simp only [regeneratePassword, e, if_neg hh, mapGet_set] at hc ⊢
            obtain ⟨lb, hlb, hm⟩ := h c lid hc
            by_cases hc2 : lobbyId = lid
            · subst hc2
              rw [e] at hlb
              injection hlb with h5
              subst h5
              rw [if_pos rfl]
              exact ⟨_, rfl, by simpa using hm⟩
            · rw [if_neg hc2]
              exact ⟨lb, hlb, hm⟩

theorem subCons_toggle (st : ServerState) (lobbyId? : Option String) (playerId : String)
    (h : SubConsistent st) : SubConsistent (togglePrivacy st lobbyId? playerId).2 := by
  intro c lid hc
  cases lobbyId? with
  | none => exact h c lid hc
  | some lobbyId =>
      cases e : mapGet st.lobbies lobbyId with
      | none =>
          simp only [togglePrivacy, e] at hc ⊢
          exact h c lid hc
      | some lobby =>
          by_cases hh : lobby.hostId ≠ playerId
          · simp only [togglePrivacy, e, if_pos hh] at hc ⊢
            exact h c lid hc
          · simp only [togglePrivacy, e, if_neg hh, mapGet_set] at hc ⊢
            obtain ⟨lb, hlb, hm⟩ := h c lid hc
            by_cases hc2 : lobbyId = lid
            · subst hc2
              rw [e] at hlb
              injection hlb with h5
              subst h5
              rw [if_pos rfl]
              exact ⟨_, rfl, by simpa using hm⟩
            · rw [if_neg hc2]
              exact ⟨lb, hlb, hm⟩

theorem subCons_close (st : ServerState) (clientId : String)
    (h : SubConsistent st) : SubConsistent (closeConnection st clientId) := by
  intro c lid hc
  simp only [closeConnection, mapGet_delete] at hc
  by_cases hc1 : clientId = c
  · rw [if_pos hc1] at hc
    exact absurd hc (by simp)
  · rw [if_neg hc1] at hc
    exact subCons_leave st clientId h c lid hc

theorem subCons_step {st st' : ServerState} (hs : Step st st') (h : SubConsistent st) :
    SubConsistent st' := by
  cases hs with
  | register cid name level? => exact subCons_register st cid name level? h
  | create lobbyId title hostId maxPlayers? password createdAt hfresh =>
      exact subCons_create st lobbyId title hostId maxPlayers? password createdAt hfresh h
  | join lobbyId playerId => exact subCons_join st lobbyId playerId h
  | leave playerId => exact subCons_leave st playerId h
  | delist playerId => exact subCons_delist st _ playerId h
  | chat playerId message => exact subCons_chat st _ playerId message h
  | regen playerId newPassword => exact subCons_regen st _ playerId newPassword h
  | toggle playerId => exact subCons_toggle st _ playerId h
  | close clientId => exact subCons_close st clientId h

theorem subCons_reachable (st : ServerState) (h : Reachable st) : SubConsistent st := by
  induction h with
  | refl => exact subCons_init
  | tail _ hstep ih => exact subCons_step hstep ih

/-
Concrete scenario states, built by running the operations from the empty
initial state.
-/

/-- A lobby created with caller-supplied `maxPlayers = 0`. -/
def s0zero : ServerState :=
  (createLobby initState "L0" "t0" "H" (some 0) "PW0" 0).2

def lobbyZero : Lobby :=
  { id := "L0", title := "t0", hostId := "H", players := ["H"], maxPlayers := 0,
    password := "PW0", isPrivate := false, createdAt := 0,
    chatMessages := [⟨"System", "Lobby created! Welcome!"⟩] }

theorem reach_s0zero : Reachable s0zero :=
  Relation.ReflTransGen.single
    (Step.create initState "L0" "t0" "H" (some 0) "PW0" 0 rfl)

/-- Connection "A" creates a lobby, then creates a second one without ever
leaving the first. -/
def sL1 : ServerState := (createLobby initState "L1" "t1" "A" none "P1" 0).2

def sL2 : ServerState := (createLobby sL1 "L2" "t2" "A" none "P2" 0).2

def lobbyA1 : Lobby :=
  { id := "L1", title := "t1", hostId := "A", players := ["A"], maxPlayers := 3,
    password := "P1", isPrivate := false, createdAt := 0,
    chatMessages := [⟨"System", "Lobby created! Welcome!"⟩] }

def lobbyA2 : Lobby :=
  { id := "L2", title := "t2", hostId := "A", players := ["A"], maxPlayers := 3,
    password := "P2", isPrivate := false, createdAt := 0,
    chatMessages := [⟨"System", "Lobby created! Welcome!"⟩] }

theorem reach_sL2 : Reachable sL2 :=
  Relation.ReflTransGen.tail
    (Relation.ReflTransGen.single
      (Step.create initState "L1" "t1" "A" none "P1" 0 rfl))
    (Step.create sL1 "L2" "t2" "A" none "P2" 0 (by decide))

/-- "alice" (connection "A") and "bob" (connection "B") register; "A" creates
lobby "L" and "B" joins it. -/
def stAB : ServerState :=
  (joinLobby
    (createLobby
      (registerPlayer (registerPlayer initState "A" "alice" (some 2)) "B" "bob" none)
      "L" "t" "A" (some 3) "PW" 0).2
    "L" "B").2

def lobbyAB : Lobby :=
  { id := "L", title := "t", hostId := "A", players := ["A", "B"], maxPlayers := 3,
    password := "PW", isPrivate := false, createdAt := 0,
    chatMessages := [⟨"System", "Lobby created! Welcome!"⟩,
                     ⟨"System", "bob joined the lobby"⟩] }

/-- A single-member lobby that is already at capacity (`maxPlayers = 1`). -/
def stFull : ServerState := (createLobby initState "LF" "tf" "A" (some 1) "PF" 0).2

def lobbyFull : Lobby :=
  { id := "LF", title := "tf", hostId := "A", players := ["A"], maxPlayers := 1,
    password := "PF", isPrivate := false, createdAt := 0,
    chatMessages := [⟨"System", "Lobby created! Welcome!"⟩] }

/-- C1 (claim as stated is FALSE): the spec claims
`len(memberIds) ≤ maxPlayers` holds on every reachable state, including
after `createLobby` with any caller-supplied `maxPlayers` such as 0.  The
code never validates `maxPlayers` and always seeds the member list with the
host, so creating a lobby with `maxPlayers = 0` yields 1 member > 0 capacity.
-/
theorem c1_counterexample :
    ¬(∀ st, Reachable st → ∀ lid l, mapGet st.lobbies lid = some l →
        l.players.length ≤ l.maxPlayers) := by
  intro hclaim
  have h1 := hclaim s0zero reach_s0zero "L0" lobbyZero (by decide)
  exact absurd h1 (by decide)

/-- C1 (amended): on every reachable state every lobby satisfies
`len(players) ≤ max maxPlayers 1`: `join` enforces the `maxPlayers` bound
and every other operation only shrinks or preserves membership, but
`createLobby` itself always installs the host as sole member, so a lobby
created with `maxPlayers = 0` carries one member.
-/
theorem c1_amended (st : ServerState) (hre : Reachable st) (lid : String) (l : Lobby)
    (hl : mapGet st.lobbies lid = some l) :
    l.players.length ≤ max l.maxPlayers 1 :=
  capInv_reachable st hre lid l hl

theorem c1_amended_witness :
    lobbyZero.players.length ≤ max lobbyZero.maxPlayers 1 :=
  c1_amended s0zero reach_s0zero "L0" lobbyZero (by decide)

/-- C2 (claim as stated is FALSE): the spec claims each connection is a member
of at most one lobby and that a connection is subscribed iff it is a member
somewhere.  `create_lobby` (and `join_lobby`) never remove the caller from a
lobby it already occupies: after connection "A" issues `create_lobby` twice
it is listed in the member lists of two distinct lobbies.
-/
theorem c2_counterexample :
    ¬(∀ st, Reachable st →
        (∀ c lid1 l1 lid2 l2, mapGet st.lobbies lid1 = some l1 →
            mapGet st.lobbies lid2 = some l2 → c ∈ l1.players → c ∈ l2.players →
            lid1 = lid2) ∧
        (∀ c, (∃ lid, mapGet st.subs c = some lid) ↔
            (∃ lid lb, mapGet st.lobbies lid = some lb ∧ c ∈ lb.players))) := by
  intro hclaim
  obtain ⟨hone, _⟩ := hclaim sL2 reach_sL2
  have h12 := hone "A" "L1" lobbyA1 "L2" lobbyA2
    (by decide) (by decide) (by decide) (by decide)
  exact absurd h12 (by decide)

/-- C2 (amended): the direction along the subscription does hold on every
reachable state: whenever the Subscription Index maps connection `c` to
lobby id `lid`, that lobby exists in the Lobby Store and `c` is in its
member list.  (Multi-membership and the reverse direction fail, as the
counterexample shows.)
-/
theorem c2_amended (st : ServerState) (hre : Reachable st) (c lid : String)
    (hc : mapGet st.subs c = some lid) :
    ∃ lb, mapGet st.lobbies lid = some lb ∧ c ∈ lb.players :=
  subCons_reachable st hre c lid hc

theorem c2_amended_witness :
    ∃ lb, mapGet sL2.lobbies "L2" = some lb ∧ "A" ∈ lb.players :=
  c2_amended sL2 reach_sL2 "A" "L2" (by decide)

/-
C3 scenario: "A" creates lobby "L" (1 system message), sends 99 chat
messages (history reaches the cap of 100), then "B" joins: the join system
message is appended WITHOUT trimming, leaving 101 entries.
-/

def sC1 : ServerState := (createLobby initState "L" "t" "A" (some 5) "PW" 0).2

/-- Runs `n` successive `send_chat_message` commands from connection "A". -/
def chatIter : Nat → ServerState → ServerState
  | 0, st => st
  | n + 1, st => chatIter n (addChatMessage st (mapGet st.subs "A") "A" "hi").2

theorem reachable_chatIter (n : Nat) (st : ServerState) (h : Reachable st) :
    Reachable (chatIter n st) := by
  induction n generalizing st with
  | zero => exact h
  | succ n ih =>
      exact ih _ (Relation.ReflTransGen.tail h (Step.chat st "A" "hi"))

def stC3 : ServerState := (joinLobby (chatIter 99 sC1) "L" "B").2

theorem reach_stC3 : Reachable stC3 :=
  Relation.ReflTransGen.tail
    (reachable_chatIter 99 sC1
      (Relation.ReflTransGen.single
        (Step.create initState "L" "t" "A" (some 5) "PW" 0 rfl)))
    (Step.join (chatIter 99 sC1) "L" "B")

set_option maxRecDepth 20000 in
theorem stC3_chat_len :
    (mapGet stC3.lobbies "L").map (fun l => l.chatMessages.length) = some 101 := by
  decide

/-- C3 (claim as stated is FALSE): the cap of 100 chat entries is enforced only
inside `addChatMessage`; the system messages appended by `joinLobby` (and
`leaveLobby`) are pushed without trimming.  Starting from a fresh lobby
(1 welcome message), 99 chat messages bring the history to exactly 100, and
a subsequent join pushes a 101st entry.
-/
theorem c3_counterexample :
    ¬(∀ st, Reachable st → ∀ lid l, mapGet st.lobbies lid = some l →
        l.chatMessages.length ≤ 100) := by
  intro hclaim
  cases e : mapGet stC3.lobbies "L" with
  | none =>
      have hx := stC3_chat_len
      rw [e] at hx
      exact Option.noConfusion hx
  | some l =>
      have hx := stC3_chat_len
      rw [e] at hx
      have h101 : l.chatMessages.length = 101 := by
        injection hx
      have hle := hclaim stC3 reach_stC3 "L" l e
      omega

/-- C3 (amended): `addChatMessage` itself does maintain the bound with FIFO
eviction: on success the stored history is a suffix of the old history plus
the new message (oldest entries dropped first) and its length is
`min (old + 1) 100`.  The join/leave system messages bypass this trimming,
which is why the blanket "after every operation" form fails.
-/
theorem c3_amended (st : ServerState) (lid pid m : String) (lobby : Lobby)
    (hl : mapGet st.lobbies lid = some lobby) (hm : pid ∈ lobby.players) :
    ∃ cm st', addChatMessage st (some lid) pid m = (.ok cm, st') ∧
      ∃ lobby', mapGet st'.lobbies lid = some lobby' ∧
        lobby'.chatMessages.length = min (lobby.chatMessages.length + 1) 100 ∧
        lobby'.chatMessages <:+ lobby.chatMessages ++ [cm] := by
  by_cases hlen :
      (lobby.chatMessages ++
        [(⟨nameOr st pid "Unknown", m.trim⟩ : ChatMessage)]).length > 100
  · have heq : addChatMessage st (some lid) pid m =
        (.ok (⟨nameOr st pid "Unknown", m.trim⟩ : ChatMessage),
         { st with lobbies := mapSet st.lobbies lid { lobby with chatMessages :=
             (List.drop
               ((lobby.chatMessages ++
                 [(⟨nameOr st pid "Unknown", m.trim⟩ : ChatMessage)]).length - 100)
               (lobby.chatMessages ++
                 [(⟨nameOr st pid "Unknown", m.trim⟩ : ChatMessage)])) } }) := by
      simp only [addChatMessage, hl, if_pos hm, if_pos hlen]
    refine ⟨_, _, heq,
      { lobby with chatMessages :=
          (List.drop
            ((lobby.chatMessages ++
              [(⟨nameOr st pid "Unknown", m.trim⟩ : ChatMessage)]).length - 100)
            (lobby.chatMessages ++
              [(⟨nameOr st pid "Unknown", m.trim⟩ : ChatMessage)])) },
      ?_, ?_, ?_⟩
    · rw [mapGet_set, if_pos rfl]
    · simp only [List.length_drop, List.length_append, List.length_cons,
        List.length_nil] at hlen ⊢
      omega
    · exact List.drop_suffix _ _
  · have heq : addChatMessage st (some lid) pid m =
        (.ok (⟨nameOr st pid "Unknown", m.trim⟩ : ChatMessage),
         { st with lobbies := mapSet st.lobbies lid { lobby with chatMessages :=
             lobby.chatMessages ++
               [(⟨nameOr st pid "Unknown", m.trim⟩ : ChatMessage)] } }) := by
      simp only [addChatMessage, hl, if_pos hm, if_neg hlen]
    refine ⟨_, _, heq,
      { lobby with chatMessages :=
          lobby.chatMessages ++ [(⟨nameOr st pid "Unknown", m.trim⟩ : ChatMessage)] },
      ?_, ?_, ?_⟩
    · rw [mapGet_set, if_pos rfl]
    · simp only [List.length_append, List.length_cons, List.length_nil] at hlen ⊢
      omega
    · exact List.suffix_refl _

theorem c3_amended_witness :
    ∃ cm st', addChatMessage stAB (some "L") "A" " hi " = (.ok cm, st') ∧
      ∃ lobby', mapGet st'.lobbies "L" = some lobby' ∧
        lobby'.chatMessages.length = min (lobbyAB.chatMessages.length + 1) 100 ∧
        lobby'.chatMessages <:+ lobbyAB.chatMessages ++ [cm] :=
  c3_amended stAB "L" "A" " hi " lobbyAB (by decide) (by decide)

/-- A successful `leaveLobby` always deletes the leaver's subscription entry. -/
theorem leaveLobby_ok_subs (st : ServerState) (p : String) (lr : LeaveOk)
    (h : (leaveLobby st p).1 = .ok lr) :
    mapGet (leaveLobby st p).2.subs p = none := by
  cases e1 : mapGet st.subs p with
  | none =>
      simp only [leaveLobby, e1] at h
      exact absurd h (by simp)
  | some lobbyId =>
      cases e2 : mapGet st.lobbies lobbyId with
      | none =>
          simp only [leaveLobby, e1, e2] at h
          exact absurd h (by simp)
      | some lobby =>
          by_cases hh : lobby.hostId = p
          · cases e3 : lobby.players.filter (fun pid => pid != p) with
            | nil =>
                simp only [leaveLobby, e1, e2, if_pos hh, e3, mapGet_delete]
                simp
            | cons newHost rest =>
                simp only [leaveLobby, e1, e2, if_pos hh, e3, mapGet_delete]
                simp
          · simp only [leaveLobby, e1, e2, if_neg hh, mapGet_delete]
            simp

/-- A successful `delistLobby` removes the lobby from the store. -/
theorem delistLobby_ok_gone (st : ServerState) (lid cid : String) (u : Unit)
    (h : (delistLobby st (some lid) cid).1 = .ok u) :
    mapGet (delistLobby st (some lid) cid).2.lobbies lid = none := by
  cases e : mapGet st.lobbies lid with
  | none =>
      simp only [delistLobby, e] at h
      exact absurd h (by simp)
  | some lobby =>
      by_cases hh : lobby.hostId ≠ cid
      · simp only [delistLobby, e, if_pos hh] at h
        exact absurd h (by simp)
      · simp only [delistLobby, e, if_neg hh, mapGet_delete]
        simp

def lobbyAfterBLeft : Lobby :=
  { id := "L", title := "t", hostId := "A", players := ["A"], maxPlayers := 3,
    password := "PW", isPrivate := false, createdAt := 0,
    chatMessages := [⟨"System", "Lobby created! Welcome!"⟩,
                     ⟨"System", "bob joined the lobby"⟩,
                     ⟨"System", "bob left the lobby"⟩] }

/-- C4 (CODE BUG): the spec requires every remaining member to receive a
`player_left` notification after a leave that does not delete the lobby.
The `leave_lobby` handler (and the close handler) resolve the lobby for the
broadcast via `lobbySubscriptions.get(ws.playerId)` AFTER `leaveLobby` has
deleted that entry, so `broadcastToLobby` is called with `undefined`, finds
no lobby, and silently sends nothing: no `player_left` event is ever
emitted.  Concretely, when "bob" leaves the two-member lobby `stAB`,
"alice" stays a member of the surviving lobby yet the only events are
`lobby_left` to "bob" and the global `lobbies_updated`.
-/
theorem c4_player_left_never_delivered :
    (∀ st clients cid,
        ((handleLeaveLobby st clients cid).2.filter
            (fun e => e.type == "player_left")) = []) ∧
    (∀ st clients cid,
        ((handleClose st clients cid).2.filter
            (fun e => e.type == "player_left")) = []) ∧
    (mapGet (handleLeaveLobby stAB ["A", "B"] "B").1.lobbies "L" =
        some lobbyAfterBLeft ∧
      "A" ∈ lobbyAfterBLeft.players ∧
      (handleLeaveLobby stAB ["A", "B"] "B").2 =
        [⟨"lobby_left", ["B"]⟩, ⟨"lobbies_updated", ["A", "B"]⟩]) := by
  refine ⟨?_, ?_, by decide, by decide, by decide⟩
  · intro st clients cid
    cases e : (leaveLobby st cid).1 with
    | error msg =>
        simp only [handleLeaveLobby, e]
        simp [sendToClient]
    | ok lr =>
        have hsub := leaveLobby_ok_subs st cid lr e
        cases lr with
        | deleted =>
            simp only [handleLeaveLobby, e]
            simp [sendToClient, broadcastAll]
        | stillExists lb =>
            simp only [handleLeaveLobby, e, hsub]
            simp [broadcastToLobby, sendToClient, broadcastAll]
  · intro st clients cid
    cases e : (leaveLobby st cid).1 with
    | error msg =>
        simp only [handleClose, e]
        simp [broadcastAll]
    | ok lr =>
        have hsub := leaveLobby_ok_subs st cid lr e
        cases lr with
        | deleted =>
            simp only [handleClose, e]
            simp [broadcastAll]
        | stillExists lb =>
            simp only [handleClose, e, hsub]
            simp [broadcastToLobby, broadcastAll]

/-- C5 (CODE BUG): on a successful delist the lobby is removed and every former
member's subscription entry is cleared, but the `lobby_delisted`
notification is lost: the handler calls `broadcastToLobby` with the lobby
id AFTER `delistLobby` has deleted the lobby from the store, so the lookup
fails and nothing is sent.  Concretely, when host "alice" delists the
two-member lobby `stAB`, the lobby and both subscriptions are gone but the
only event is the global `lobbies_updated` — neither former member receives
`lobby_delisted`.
-/
theorem c5_lobby_delisted_never_delivered :
    (∀ st clients cid,
        ((handleDelistLobby st clients cid).2.filter
            (fun e => e.type == "lobby_delisted")) = []) ∧
    (mapGet (handleDelistLobby stAB ["A", "B"] "A").1.lobbies "L" = none ∧
      mapGet (handleDelistLobby stAB ["A", "B"] "A").1.subs "A" = none ∧
      mapGet (handleDelistLobby stAB ["A", "B"] "A").1.subs "B" = none ∧
      (handleDelistLobby stAB ["A", "B"] "A").2 =
        [⟨"lobbies_updated", ["A", "B"]⟩]) := by
  refine ⟨?_, by decide, by decide, by decide, by decide⟩
  intro st clients cid
  cases e0 : mapGet st.subs cid with
  | none =>
      simp only [handleDelistLobby, e0]
      simp [delistLobby, sendToClient]
  | some lid =>
      cases e : (delistLobby st (some lid) cid).1 with
      | error msg =>
          simp only [handleDelistLobby, e0, e]
          simp [sendToClient]
      | ok u =>
          have hgone := delistLobby_ok_gone st lid cid u e
          simp only [handleDelistLobby, e0, e]
          simp [broadcastToLobby, hgone, broadcastAll]

/-- C6 (confirmed): when the host leaves as sole member the lobby is deleted
and the result signals `lobbyDeleted`; when the host leaves with others
remaining, the head of the surviving member list (the earliest-joined
remaining member, `memberIds[0]` after the filter) becomes host and a
system "... is now the host" message is appended as the last chat entry.
-/
theorem c6_host_succession (st : ServerState) (lid p : String) (lobby : Lobby)
    (hsub : mapGet st.subs p = some lid)
    (hlobby : mapGet st.lobbies lid = some lobby)
    (hhost : lobby.hostId = p) :
    (lobby.players = [p] →
        (leaveLobby st p).1 = .ok .deleted ∧
        mapGet (leaveLobby st p).2.lobbies lid = none) ∧
    (∀ q qs, lobby.players.filter (fun pid => pid != p) = q :: qs →
        ∃ lobby', (leaveLobby st p).1 = .ok (.stillExists lobby') ∧
          mapGet (leaveLobby st p).2.lobbies lid = some lobby' ∧
          lobby'.hostId = q ∧
          lobby'.players = q :: qs ∧
          lobby'.chatMessages.getLast? =
            some ⟨"System", nameOr st q "Player" ++ " is now the host"⟩) := by
  constructor
  · intro hsole
    have e3 : lobby.players.filter (fun pid => pid != p) = [] := by
      rw [hsole]
      simp
    constructor
    · simp only [leaveLobby, hsub, hlobby, if_pos hhost, e3]
    · simp only [leaveLobby, hsub, hlobby, if_pos hhost, e3, mapGet_delete]
      simp
  · intro q qs e3
    refine ⟨{ lobby with
        players := q :: qs, hostId := q,
        chatMessages := (lobby.chatMessages ++
            [⟨"System", nameOr st p "Player" ++ " left the lobby"⟩]) ++
          [⟨"System", nameOr st q "Player" ++ " is now the host"⟩] },
      ?_, ?_, rfl, rfl, ?_⟩
    · simp only [leaveLobby, hsub, hlobby, if_pos hhost, e3]
    · simp only [leaveLobby, hsub, hlobby, if_pos hhost, e3, mapGet_set]
      simp
    · simp [List.getLast?_concat]

theorem c6_witness :
    ∃ lobby', (leaveLobby stAB "A").1 = .ok (.stillExists lobby') ∧
      mapGet (leaveLobby stAB "A").2.lobbies "L" = some lobby' ∧
      lobby'.hostId = "B" ∧ lobby'.players = ["B"] ∧
      lobby'.chatMessages.getLast? =
        some ⟨"System", nameOr stAB "B" "Player" ++ " is now the host"⟩ :=
  (c6_host_succession stAB "L" "A" lobbyAB (by decide) (by decide)
      (by decide)).2 "B" [] (by decide)

/-- C7 (confirmed): joining a lobby whose member count equals `maxPlayers`
fails with the "Lobby is full" error for any joining player (the capacity
check runs before the membership check) and returns the state unchanged.
-/
theorem c7_join_full (st : ServerState) (lid q : String) (lobby : Lobby)
    (hlobby : mapGet st.lobbies lid = some lobby)
    (hfull : lobby.players.length = lobby.maxPlayers) :
    joinLobby st lid q = (.error "Lobby is full", st) := by
  have hge : lobby.players.length ≥ lobby.maxPlayers := le_of_eq hfull.symm
  simp only [joinLobby, hlobby, if_pos hge]

theorem c7_witness : joinLobby stFull "LF" "B" = (.error "Lobby is full", stFull) :=
  c7_join_full stFull "LF" "B" lobbyFull (by decide) (by decide)

/-- C8 (confirmed): host-only operations invoked by a non-host fail with the
Forbidden-style error and return the state unchanged, and every failure
path of every Lobby Store operation returns the state exactly as it was
(all error branches return before mutating anything).
-/
theorem c8_failure_preserves_state :
    (∀ st lid pid lobby, mapGet st.lobbies lid = some lobby → lobby.hostId ≠ pid →
        delistLobby st (some lid) pid = (.error "Only host can delist lobby", st) ∧
        (∀ pw, regeneratePassword st (some lid) pid pw =
            (.error "Only host can regenerate password", st)) ∧
        togglePrivacy st (some lid) pid = (.error "Only host can change privacy", st)) ∧
    (∀ st lid pid e st2, joinLobby st lid pid = (.error e, st2) → st2 = st) ∧
    (∀ st pid e st2, leaveLobby st pid = (.error e, st2) → st2 = st) ∧
    (∀ st lid? pid e st2, delistLobby st lid? pid = (.error e, st2) → st2 = st) ∧
    (∀ st lid? pid m e st2, addChatMessage st lid? pid m = (.error e, st2) → st2 = st) ∧
    (∀ st lid? pid pw e st2,
        regeneratePassword st lid? pid pw = (.error e, st2) → st2 = st) ∧
    (∀ st lid? pid e st2, togglePrivacy st lid? pid = (.error e, st2) → st2 = st) ∧
    (∀ st lid? pid e st2, getLobbyDetails st lid? pid = (.error e, st2) → st2 = st) := by
  refine ⟨?_, ?_, ?_, ?_, ?_, ?_, ?_, ?_⟩
  · intro st lid pid lobby h1 h2
    refine ⟨?_, fun pw => ?_, ?_⟩
    · simp only [delistLobby, h1, if_pos h2]
    · simp only [regeneratePassword, h1, if_pos h2]
    · simp only [togglePrivacy, h1, if_pos h2]
  · intro st lid pid e st2 h
    cases e0 : mapGet st.lobbies lid with
    | none =>
        simp only [joinLobby, e0] at h
        injection h with h1 h2
        exact h2.symm
    | some lobby =>
        by_cases hfull : lobby.players.length ≥ lobby.maxPlayers
        · simp only [joinLobby, e0, if_pos hfull] at h
          injection h with h1 h2
          exact h2.symm
        · by_cases hmem : pid ∈ lobby.players
          · simp only [joinLobby, e0, if_neg hfull, if_pos hmem] at h
            injection h with h1 h2
            exact h2.symm
          · simp only [joinLobby, e0, if_neg hfull, if_neg hmem] at h
            injection h with h1 h2
            exact Except.noConfusion h1
  · intro st pid e st2 h
    cases e1 : mapGet st.subs pid with
    | none =>
        simp only [leaveLobby, e1] at h
        injection h with h1 h2
        exact h2.symm
    | some lobbyId =>
        cases e2 : mapGet st.lobbies lobbyId with
        | none =>
            simp only [leaveLobby, e1, e2] at h
            injection h with h1 h2
            exact h2.symm
        | some lobby =>
            by_cases hh : lobby.hostId = pid
            · cases e3 : lobby.players.filter (fun x => x != pid) with
              | nil =>
                  simp only [leaveLobby, e1, e2, if_pos hh, e3] at h
                  injection h with h1 h2
                  exact Except.noConfusion h1
              | cons newHost rest =>
                  simp only [leaveLobby, e1, e2, if_pos hh, e3] at h
                  injection h with h1 h2
                  exact Except.noConfusion h1
            · simp only [leaveLobby, e1, e2, if_neg hh] at h
              injection h with h1 h2
              exact Except.noConfusion h1
  · intro st lid? pid e st2 h
    cases lid? with
    | none =>
        simp only [delistLobby] at h
        injection h with h1 h2
        exact h2.symm
    | some lid =>
        cases e0 : mapGet st.lobbies lid with
        | none =>
            simp only [delistLobby, e0] at h
            injection h with h1 h2
            exact h2.symm
        | some lobby =>
            by_cases hh : lobby.hostId ≠ pid
            · simp only [delistLobby, e0, if_pos hh] at h
              injection h with h1 h2
              exact h2.symm
            · simp only [delistLobby, e0, if_neg hh] at h
              injection h with h1 h2
              exact Except.noConfusion h1
  · intro st lid? pid m e st2 h
    cases lid? with
    | none =>
        simp only [addChatMessage] at h
        injection h with h1 h2
        exact h2.symm
    | some lid =>
        cases e0 : mapGet st.lobbies lid with
        | none =>
            simp only [addChatMessage, e0] at h
            injection h with h1 h2
            exact h2.symm
        | some lobby =>
            by_cases hmem : pid ∈ lobby.players
            · simp only [addChatMessage, e0, if_pos hmem] at h
              injection h with h1 h2
              exact Except.noConfusion h1
            · simp only [addChatMessage, e0, if_neg hmem] at h
              injection h with h1 h2
              exact h2.symm
  · intro st lid? pid pw e st2 h
    cases lid? with
    | none =>
        simp only [regeneratePassword] at h
        injection h with h1 h2
        exact h2.symm
    | some lid =>
        cases e0 : mapGet st.lobbies lid with
        | none =>
            simp only [regeneratePassword, e0] at h
            injection h with h1 h2
            exact h2.symm
        | some lobby =>
            by_cases hh : lobby.hostId ≠ pid
            · simp only [regeneratePassword, e0, if_pos hh] at h
              injection h with h1 h2
              exact h2.symm
            · simp only [regeneratePassword, e0, if_neg hh] at h
              injection h with h1 h2
              exact Except.noConfusion h1
  · intro st lid? pid e st2 h
    cases lid? with
    | none =>
        simp only [togglePrivacy] at h
        injection h with h1 h2
        exact h2.symm
    | some lid =>
        cases e0 : mapGet st.lobbies lid with
        | none =>
            simp only [togglePrivacy, e0] at h
            injection h with h1 h2
            exact h2.symm
        | some lobby =>
            by_cases hh : lobby.hostId ≠ pid
            · simp only [togglePrivacy, e0, if_pos hh] at h
              injection h with h1 h2
              exact h2.symm
            · simp only [togglePrivacy, e0, if_neg hh] at h
              injection h with h1 h2
              exact Except.noConfusion h1
  · intro st lid? pid e st2 h
    cases lid? with
    | none =>
        simp only [getLobbyDetails] at h
        injection h with h1 h2
        exact h2.symm
    | some lid =>
        cases e0 : mapGet st.lobbies lid with
        | none =>
            simp only [getLobbyDetails, e0] at h
            injection h with h1 h2
            exact h2.symm
        | some lobby =>
            by_cases hmem : pid ∈ lobby.players
            · simp only [getLobbyDetails, e0, if_pos hmem] at h
              injection h with h1 h2
              exact Except.noConfusion h1
            · simp only [getLobbyDetails, e0, if_neg hmem] at h
              injection h with h1 h2
              exact h2.symm

theorem c8_witness :
    delistLobby stAB (some "L") "B" = (.error "Only host can delist lobby", stAB) ∧
    regeneratePassword stAB (some "L") "B" "NEWPW" =
      (.error "Only host can regenerate password", stAB) ∧
    togglePrivacy stAB (some "L") "B" = (.error "Only host can change privacy", stAB) ∧
    (joinLobby stAB "L" "A").2 = stAB := by
  have hforb := c8_failure_preserves_state.1 stAB "L" "B" lobbyAB (by decide) (by decide)
  exact ⟨hforb.1, hforb.2.1 "NEWPW", hforb.2.2,
    c8_failure_preserves_state.2.1 stAB "L" "A" "Already in lobby"
      (joinLobby stAB "L" "A").2 (by rfl)⟩

/-- C9 (confirmed): two successive `togglePrivacy` calls by the current host
both succeed (the host is unchanged by the first call) and restore the
lobby's stored `isPrivate` flag to its original value; the second call
reports the original value.
-/
theorem c9_toggle_involution (st : ServerState) (lid p : String) (lobby : Lobby)
    (hlobby : mapGet st.lobbies lid = some lobby) (hhost : lobby.hostId = p) :
    ∃ lobby2,
      mapGet (togglePrivacy (togglePrivacy st (some lid) p).2 (some lid) p).2.lobbies
          lid = some lobby2 ∧
      lobby2.isPrivate = lobby.isPrivate ∧
      (togglePrivacy (togglePrivacy st (some lid) p).2 (some lid) p).1 =
        .ok lobby.isPrivate := by
  have hne : ¬(lobby.hostId ≠ p) := by simp [hhost]
  have h1 : (togglePrivacy st (some lid) p).2 =
      { st with lobbies :=
          mapSet st.lobbies lid { lobby with isPrivate := !lobby.isPrivate } } := by
    simp only [togglePrivacy, hlobby, if_neg hne]
  have h2 : mapGet (togglePrivacy st (some lid) p).2.lobbies lid =
      some { lobby with isPrivate := !lobby.isPrivate } := by
    rw [h1]
    simp [mapGet_set]
  have hne2 : ¬(({ lobby with isPrivate := !lobby.isPrivate } : Lobby).hostId ≠ p) := by
    simp [hhost]
  obtain ⟨st1, hg⟩ : ∃ st1, (togglePrivacy st (some lid) p).2 = st1 := ⟨_, rfl⟩
  rw [hg] at h2
  rw [hg]
  refine ⟨{ lobby with isPrivate := !(!lobby.isPrivate) }, ?_, ?_, ?_⟩
  · simp only [togglePrivacy, h2, if_neg hne2, mapGet_set]
    simp
  · simp
  · simp only [togglePrivacy, h2, if_neg hne2]
    simp

theorem c9_witness :
    ∃ lobby2,
      mapGet (togglePrivacy (togglePrivacy stFull (some "LF") "A").2
          (some "LF") "A").2.lobbies "LF" = some lobby2 ∧
      lobby2.isPrivate = lobbyFull.isPrivate ∧
      (togglePrivacy (togglePrivacy stFull (some "LF") "A").2 (some "LF") "A").1 =
        .ok lobbyFull.isPrivate :=
  c9_toggle_involution stFull "LF" "A" lobbyFull (by decide) (by decide)

/-- Resolving a member list through the registry via `filterMap` gets
strictly shorter as soon as one member has no registry entry. -/
theorem filterMap_length_lt {α β : Type} (f : α → Option β) (l : List α) (a : α)
    (ha : a ∈ l) (hf : f a = none) : (l.filterMap f).length < l.length := by
  induction l with
  | nil => cases ha
  | cons x xs ih =>
      rcases List.mem_cons.mp ha with h1 | h1
      · subst h1
        simp only [List.filterMap_cons, hf, List.length_cons]
        have hle := List.length_filterMap_le f xs
        omega
      · cases e : f x with
        | none =>
            simp only [List.filterMap_cons, e, List.length_cons]
            have hlt := ih h1
            omega
        | some b =>
            simp only [List.filterMap_cons, e, List.length_cons]
            have hlt := ih h1
            omega

/-- C10 (confirmed): both the public lobby list and `getLobbyDetails` resolve
member ids through the Identity Registry with
`.map(pid => players.get(pid)).filter(Boolean)`: ids without a registry
entry are silently dropped, so each resolved player list equals the
`filterMap` of the member list, is never longer than it, and is strictly
shorter whenever some member id is unregistered.
-/
theorem c10_unregistered_members_dropped :
    (∀ st s, s ∈ getPublicLobbies st →
        ∃ e, e ∈ st.lobbies ∧ e.2.isPrivate = false ∧
          s.players = resolvePlayers st e.2.players ∧
          s.players.length ≤ e.2.players.length ∧
          (∀ pid, pid ∈ e.2.players → mapGet st.players pid = none →
              s.players.length < e.2.players.length)) ∧
    (∀ st lid? pid d st2, getLobbyDetails st lid? pid = (.ok d, st2) →
        ∃ lid lobby, lid? = some lid ∧ mapGet st.lobbies lid = some lobby ∧
          d.players = resolvePlayers st lobby.players ∧
          d.players.length ≤ lobby.players.length ∧
          (∀ pid2, pid2 ∈ lobby.players → mapGet st.players pid2 = none →
              d.players.length < lobby.players.length)) := by
  constructor
  · intro st s hs
    simp only [getPublicLobbies, List.mem_map, List.mem_filter] at hs
    obtain ⟨l, ⟨hlmem, hpriv⟩, rfl⟩ := hs
    obtain ⟨e, hemem, rfl⟩ := hlmem
    refine ⟨e, hemem, by simpa using hpriv, rfl, List.length_filterMap_le _ _, ?_⟩
    intro pid hp hnone
    exact filterMap_length_lt _ _ pid hp hnone
  · intro st lid? pid d st2 h
    cases lid? with
    | none =>
        simp only [getLobbyDetails] at h
        injection h with h1 h2
        exact Except.noConfusion h1
    | some lid =>
        cases e0 : mapGet st.lobbies lid with
        | none =>
            simp only [getLobbyDetails, e0] at h
            injection h with h1 h2
            exact Except.noConfusion h1
        | some lobby =>
            by_cases hmem : pid ∈ lobby.players
            · simp only [getLobbyDetails, e0, if_pos hmem] at h
              injection h with h1 h2
              injection h1 with h1
              subst h1
              refine ⟨lid, lobby, rfl, e0, rfl, List.length_filterMap_le _ _, ?_⟩
              intro pid2 hp2 hnone
              exact filterMap_length_lt _ _ pid2 hp2 hnone
            · simp only [getLobbyDetails, e0, if_neg hmem] at h
              injection h with h1 h2
              exact Except.noConfusion h1

theorem c10_witness :
    ∃ e, e ∈ stFull.lobbies ∧ e.2.isPrivate = false ∧
      (⟨"LF", "tf", [], 1, 0⟩ : LobbySummary).players = resolvePlayers stFull e.2.players ∧
      (⟨"LF", "tf", [], 1, 0⟩ : LobbySummary).players.length ≤ e.2.players.length ∧
      (∀ pid, pid ∈ e.2.players → mapGet stFull.players pid = none →
          (⟨"LF", "tf", [], 1, 0⟩ : LobbySummary).players.length < e.2.players.length) :=
  c10_unregistered_members_dropped.1 stFull ⟨"LF", "tf", [], 1, 0⟩ (by decide)
